import Mathlib

/-!
Verification of the "31 Days" habit-tracking application
(repository youchuanhuashui001/31days, file src/helloworld/app.py).

We shallowly embed the task data model (class Task), its mutation
methods, the serialization pair to_dict / from_dict, and the
persistence adapter (load_tasks / save_tasks / confirm_delete_task of
ThirtyOneDaysApp).  Wall-clock reads (datetime.date.today(),
datetime.datetime.now()) are passed in explicitly; filesystem and JSON
decoding are abstracted to the parsed level.
-/

namespace ThirtyOneDays

/--
One element of a Task.check_ins Python list.  In the source an element
is either a bare ISO-date string (legacy persisted data, app.py:50) or
a dict with keys date / time / note (app.py:61-65).  The date value of
such a dict is a string for every dict the program itself builds, but
the legacy-upgrade loop in from_dict (app.py:96-101) wraps EVERY
element of a legacy-headed list as \x7bdate: element, ...\x7d, so a dict
can appear in date position; the type is therefore recursive.
-/
inductive Entry where
  | str (s : String)
  | dict (date : Entry) (time : String) (note : String)
deriving DecidableEq, Repr

/--
The Task class of app.py:17-110, after its constructor has run.
rounds is an Int because it is read unchecked from persisted JSON
(app.py:109).
-/
structure Task where
  id : String
  name : String
  created_at : String
  check_ins : List Entry
  rounds : Int
deriving DecidableEq, Repr

/--
Python truthiness applied to an optional string default:
`x or d` yields d when x is None or the empty string (app.py:21,23).
-/
def pyOrStr (v : Option String) (d : String) : String :=
  match v with
  | none => d
  | some s => if s = "" then d else s

/-- Python `check_ins or []` for an optional list (app.py:24). -/
def pyOrList (v : Option (List Entry)) (d : List Entry) : List Entry :=
  match v with
  | none => d
  | some l => if l = [] then d else l

/--
The wall-clock values Task.__init__ / check_in read from datetime:
a generated id string, datetime.now().isoformat(), the current
time-of-day string, and date.today().isoformat().
-/
structure Clock where
  genId : String
  nowIso : String
  nowTime : String
  today : String
deriving Repr

/--
Task.__init__ (app.py:20-25): id and created_at fall back to
clock-generated values when falsy, check_ins falls back to [].
-/
def Task.init (name : String) (id : Option String) (created_at : Option String)
    (check_ins : Option (List Entry)) (rounds : Int) (clk : Clock) : Task :=
  { id := pyOrStr id clk.genId
    name := name
    created_at := pyOrStr created_at clk.nowIso
    check_ins := pyOrList check_ins []
    rounds := rounds }

/-- A brand-new task, `Task(name=task_name)` (app.py:341): defaults only. -/
def Task.new (name : String) (clk : Clock) : Task :=
  Task.init name none none none 1 clk

/-- Task.days_required (app.py:27-30): `31 * self.rounds`. -/
def Task.days_required (t : Task) : Int :=
  31 * t.rounds

/-- Task.days_completed (app.py:32-35): `len(self.check_ins)`. -/
def Task.days_completed (t : Task) : Nat :=
  t.check_ins.length

/-- Task.is_completed (app.py:37-40): `days_completed >= days_required`. -/
def Task.is_completed (t : Task) : Bool :=
  decide (t.days_required ≤ (t.days_completed : Int))

/--
Whether one check_ins element counts as a record for day `today`
(loop body of can_check_in_today, app.py:47-51): a dict whose date
value equals the string today, or a bare string equal to today.
-/
def Entry.isForDate (e : Entry) (today : String) : Bool :=
  match e with
  | .dict d _ _ => d == Entry.str today
  | .str s => s == today

/--
Task.can_check_in_today (app.py:42-52): true unless some element of
check_ins is a record for today.
-/
def Task.can_check_in_today (t : Task) (today : String) : Bool :=
  t.check_ins.all fun e => !e.isForDate today

/--
Task.check_in (app.py:54-69): when allowed, appends the record
\x7bdate: today, time: now, note: note\x7d and returns True; otherwise
returns False without mutation.  Returns the new task paired with the
boolean result.
-/
def Task.check_in (t : Task) (note : String) (clk : Clock) : Task × Bool :=
  if t.can_check_in_today clk.today then
    ({ t with check_ins :=
        t.check_ins ++ [Entry.dict (Entry.str clk.today) clk.nowTime note] },
     true)
  else
    (t, false)

/--
Task.start_next_round (app.py:71-76): when is_completed, increments
rounds and returns True; otherwise returns False without mutation.
-/
def Task.start_next_round (t : Task) : Task × Bool :=
  if t.is_completed then
    ({ t with rounds := t.rounds + 1 }, true)
  else
    (t, false)

/--
The dict produced by Task.to_dict (app.py:78-86): all five keys are
always present.
-/
structure TaskDict where
  id : String
  name : String
  created_at : String
  check_ins : List Entry
  rounds : Int
deriving DecidableEq, Repr

/-- Task.to_dict (app.py:78-86): a field-for-field copy into a dict. -/
def Task.to_dict (t : Task) : TaskDict :=
  { id := t.id
    name := t.name
    created_at := t.created_at
    check_ins := t.check_ins
    rounds := t.rounds }

/--
A persisted task object as json.load hands it to Task.from_dict: any
of the keys may be absent (None marks a missing key).
-/
structure RawTask where
  id : Option String
  name : Option String
  created_at : Option String
  check_ins : Option (List Entry)
  rounds : Option Int
deriving DecidableEq, Repr

/-- The dict written by to_dict, viewed as raw persisted data. -/
def TaskDict.toRaw (d : TaskDict) : RawTask :=
  { id := some d.id
    name := some d.name
    created_at := some d.created_at
    check_ins := some d.check_ins
    rounds := some d.rounds }

/-- Python `data[k]` on an optional field: a missing key raises KeyError. -/
def getKey (v : Option α) (k : String) : Except String α :=
  match v with
  | some x => .ok x
  | none => .error ("KeyError: " ++ k)

/--
The legacy-upgrade branch of Task.from_dict (app.py:93-102): when the
list is non-empty and its FIRST element is a string, every element e
is replaced by \x7bdate: e, time: 00:00:00, note: \x7d; otherwise the
list is kept exactly as-is.
-/
def upgradeCheckIns (l : List Entry) : List Entry :=
  match l with
  | Entry.str _ :: _ => l.map fun e => Entry.dict e "00:00:00" ""
  | _ => l

/--
Task.from_dict (app.py:88-110): reads check_ins with a [] default and
upgrades legacy shapes, then reads name, id, created_at and rounds
unconditionally (KeyError when absent) and calls the constructor.
-/
def Task.from_dict (data : RawTask) (clk : Clock) : Except String Task := do
  let cs := upgradeCheckIns (data.check_ins.getD [])
  let name ← getKey data.name "name"
  let id ← getKey data.id "id"
  let created ← getKey data.created_at "created_at"
  let rounds ← getKey data.rounds "rounds"
  return Task.init name (some id) (some created) (some cs) rounds clk

/--
What the try-block of ThirtyOneDaysApp.load_tasks (app.py:170-176)
observes before deserialization: the storage file is absent, or
reading / JSON-parsing it raises (carrying the exception text), or it
parses as an array of task objects.
-/
inductive LoadInput where
  | noFile
  | readError (msg : String)
  | parsed (ds : List RawTask)

/--
The list comprehension `[Task.from_dict(d) for d in tasks_data]`
(app.py:175): from_dict runs left to right, each call reading the
clock at its own index; the first KeyError aborts the whole
comprehension.
-/
def fromDictAll (ds : List RawTask) (clk : Nat → Clock) (i : Nat) :
    Except String (List Task) :=
  match ds with
  | [] => .ok []
  | d :: rest => do
      let t ← Task.from_dict d (clk i)
      let ts ← fromDictAll rest clk (i + 1)
      return t :: ts

/--
ThirtyOneDaysApp.load_tasks (app.py:168-179): missing file yields [];
any exception inside the try block is caught, printed
("加载任务时出错: ...") and [] is returned.  Result is the task list
paired with the log lines printed.
-/
def load_tasks (input : LoadInput) (clk : Nat → Clock) :
    List Task × List String :=
  match input with
  | .noFile => ([], [])
  | .readError msg => ([], ["加载任务时出错: " ++ msg])
  | .parsed ds =>
      match fromDictAll ds clk 0 with
      | .ok ts => (ts, [])
      | .error e => ([], ["加载任务时出错: " ++ e])

/--
The storage state save_tasks touches: whether the parent data
directory exists, and the content of tasks.json (at the parsed level;
none means the file is absent).
-/
structure Storage where
  dirExists : Bool
  file : Option (List TaskDict)
deriving Repr

/--
ThirtyOneDaysApp.save_tasks (app.py:181-190): creates the parent
directory, then overwrites the file with the serialization (to_dict)
of the entire task list in order; an exception is caught and printed
("保存任务时出错: ...").  writeFails abstracts the write raising
(carrying the exception text).  Result is the new storage state paired
with the log lines printed.
-/
def save_tasks (st : Storage) (tasks : List Task)
    (writeFails : Option String) : Storage × List String :=
  match writeFails with
  | some msg => (st, ["保存任务时出错: " ++ msg])
  | none =>
      ({ dirExists := true, file := some (tasks.map Task.to_dict) }, [])

/--
The task-list update in ThirtyOneDaysApp.confirm_delete_task
(app.py:668): `[t for t in self.tasks if t.id != self.task_to_delete.id]`.
-/
def confirm_delete_task (tasks : List Task) (target : Task) : List Task :=
  tasks.filter fun t => t.id ≠ target.id

/--
One data-model mutation step, as driven by the UI: check_in
(app.py:416-428 via Task.check_in) or start_next_round
(app.py:487-492 via Task.start_next_round).
-/
inductive Op where
  | checkIn (note : String) (clk : Clock)
  | nextRound

/-- Apply one mutation to a task, keeping the resulting state. -/
def applyOp (t : Task) : Op → Task
  | .checkIn note clk => (t.check_in note clk).1
  | .nextRound => t.start_next_round.1

/-- Apply a sequence of mutations in order. -/
def applyOps (t : Task) (ops : List Op) : Task :=
  ops.foldl applyOp t

/-- Whether a check_ins element is a dict record rather than a bare string. -/
def Entry.isDict : Entry → Bool
  | .dict _ _ _ => true
  | .str _ => false

/--
A persisted task object carrying all four keys that from_dict reads
unconditionally (app.py:105-109).
-/
def RawTask.wellFormed (d : RawTask) : Bool :=
  d.name.isSome && d.id.isSome && d.created_at.isSome && d.rounds.isSome

/-- `check_ins or []` keeps any list when the default is []. -/
theorem pyOrList_some (l : List Entry) : pyOrList (some l) [] = l := by
  by_cases h : l = [] <;> simp [pyOrList, h]

/-- `x or d` keeps a non-empty string. -/
theorem pyOrStr_some (s d : String) (h : s ≠ "") : pyOrStr (some s) d = s := by
  simp [pyOrStr, h]

/-- A list whose elements are all dict records is not legacy-upgraded. -/
theorem upgradeCheckIns_of_records (l : List Entry)
    (h : ∀ e ∈ l, e.isDict = true) : upgradeCheckIns l = l := by
  match l with
  | [] => rfl
  | .str s :: rest =>
      exact absurd (h _ (List.mem_cons_self _ _)) (by simp [Entry.isDict])
  | .dict a b c :: rest => rfl

/-- from_dict succeeds exactly on well-keyed input, yielding the
constructor applied to the upgraded check_ins. -/
theorem from_dict_ok_iff (d : RawTask) (clk : Clock) (t : Task) :
    Task.from_dict d clk = .ok t ↔
      ∃ nm i ca r, d.name = some nm ∧ d.id = some i ∧ d.created_at = some ca ∧
        d.rounds = some r ∧
        t = Task.init nm (some i) (some ca)
          (some (upgradeCheckIns (d.check_ins.getD []))) r clk := by
  rcases d with ⟨i, nm, ca, cs, r⟩
  rcases nm <;> rcases i <;> rcases ca <;> rcases r <;>
    simp [Task.from_dict, getKey, Except.instMonad, Except.bind, pure,
      Except.pure, eq_comm]

/-- The check_ins of any task from_dict produces. -/
theorem from_dict_ok_check_ins (d : RawTask) (clk : Clock) (t : Task)
    (h : Task.from_dict d clk = .ok t) :
    t.check_ins = upgradeCheckIns (d.check_ins.getD []) := by
  rcases (from_dict_ok_iff d clk t).mp h with ⟨nm, i, ca, r, _, _, _, _, ht⟩
  subst ht
  simp [Task.init, pyOrList_some]

/--
C1: if check_ins already holds an entry for today (a dict whose date
equals today or a bare string equal to today) then check_in returns
false and leaves the task unchanged; otherwise it appends exactly the
record \x7bdate: today, time: now, note\x7d, returns true and changes no
other field; and a second check_in on the same calendar date returns
false without further mutation.
-/
theorem check_in_spec (t : Task) (note : String) (clk : Clock) :
    (t.can_check_in_today clk.today = false ↔
      ∃ e ∈ t.check_ins, e.isForDate clk.today = true) ∧
    (t.can_check_in_today clk.today = false →
      t.check_in note clk = (t, false)) ∧
    (t.can_check_in_today clk.today = true →
      t.check_in note clk =
        ({ t with check_ins := t.check_ins ++
            [Entry.dict (Entry.str clk.today) clk.nowTime note] }, true)) ∧
    (∀ note2 clk2, clk2.today = clk.today →
      (t.check_in note clk).1.check_in note2 clk2 =
        ((t.check_in note clk).1, false)) := by
  refine ⟨?_, ?_, ?_, ?_⟩
  · simp [Task.can_check_in_today, List.all_eq_true]
  · intro h
    simp [Task.check_in, h]
  · intro h
    simp [Task.check_in, h]
  · intro note2 clk2 h2
    have h2c : (t.check_in note clk).1.can_check_in_today clk2.today = false := by
      by_cases hc : t.can_check_in_today clk.today
      · have h1 : (t.check_in note clk).1 = { t with check_ins := t.check_ins ++
            [Entry.dict (Entry.str clk.today) clk.nowTime note] } := by
          simp [Task.check_in, hc]
        rw [h1, h2]
        simp [Task.can_check_in_today, Entry.isForDate]
      · have hc' : t.can_check_in_today clk.today = false := Bool.eq_false_iff.mpr hc
        have h1 : (t.check_in note clk).1 = t := by
          simp [Task.check_in, hc']
        rw [h1, h2]
        exact hc'
    generalize (t.check_in note clk).1 = t1 at h2c ⊢
    simp [Task.check_in, h2c]

/-- Concrete instance of check_in_spec: checking in twice on 2024-01-02. -/
theorem check_in_spec_witness :
    ((Task.new "Read" ⟨"1709", "c", "08:00:00", "2024-01-02"⟩).check_in "hi"
        ⟨"1709", "c", "08:00:00", "2024-01-02"⟩).1.check_in "again"
        ⟨"1710", "c2", "09:00:00", "2024-01-02"⟩ =
      (((Task.new "Read" ⟨"1709", "c", "08:00:00", "2024-01-02"⟩).check_in "hi"
        ⟨"1709", "c", "08:00:00", "2024-01-02"⟩).1, false) :=
  (check_in_spec (Task.new "Read" ⟨"1709", "c", "08:00:00", "2024-01-02"⟩) "hi"
      ⟨"1709", "c", "08:00:00", "2024-01-02"⟩).2.2.2 "again"
      ⟨"1710", "c2", "09:00:00", "2024-01-02"⟩ rfl

/--
C2: start_next_round succeeds (returning true and incrementing rounds
by exactly one) iff is_completed, i.e. days_required ≤ days_completed;
otherwise it returns false without mutation; check_ins is preserved in
either case, and after a successful advance the effective target is
31 * (rounds + 1).
-/
theorem start_next_round_spec (t : Task) :
    (t.is_completed = true ↔ t.days_required ≤ (t.days_completed : Int)) ∧
    (t.is_completed = true →
      t.start_next_round = ({ t with rounds := t.rounds + 1 }, true)) ∧
    (t.is_completed = false → t.start_next_round = (t, false)) ∧
    t.start_next_round.1.check_ins = t.check_ins ∧
    (t.is_completed = true →
      t.start_next_round.1.days_required = 31 * (t.rounds + 1)) := by
  refine ⟨?_, ?_, ?_, ?_, ?_⟩
  · simp [Task.is_completed]
  · intro h
    simp [Task.start_next_round, h]
  · intro h
    simp [Task.start_next_round, h]
  · by_cases h : t.is_completed <;> simp [Task.start_next_round, h]
  · intro h
    simp [Task.start_next_round, Task.days_required, h]

/-- Concrete instance of start_next_round_spec: a finished 1-round task. -/
theorem start_next_round_spec_witness :
    (Task.mk "1" "Read" "c"
        ((List.range 31).map fun i =>
          Entry.dict (Entry.str (toString i)) "00:00:00" "") 1).start_next_round =
      ({ Task.mk "1" "Read" "c"
          ((List.range 31).map fun i =>
            Entry.dict (Entry.str (toString i)) "00:00:00" "") 1 with
          rounds := 2 }, true) :=
  (start_next_round_spec _).2.1 (by decide)

/--
C3: after any sequence of check_in / start_next_round operations the
derived properties satisfy days_required = 31 * rounds,
days_completed = length of check_ins, and is_completed iff
days_completed ≥ days_required; and a freshly created task has
rounds = 1, days_required = 31, days_completed = 0.
-/
theorem derived_invariants_spec (t : Task) (ops : List Op)
    (name : String) (clk : Clock) :
    ((applyOps t ops).days_required = 31 * (applyOps t ops).rounds ∧
     (applyOps t ops).days_completed = (applyOps t ops).check_ins.length ∧
     ((applyOps t ops).is_completed = true ↔
       (applyOps t ops).days_required ≤ ((applyOps t ops).days_completed : Int))) ∧
    (Task.new name clk).rounds = 1 ∧
    (Task.new name clk).days_required = 31 ∧
    (Task.new name clk).days_completed = 0 := by
  refine ⟨⟨rfl, rfl, ?_⟩, rfl, rfl, rfl⟩
  simp [Task.is_completed]

/--
C4: from_dict after to_dict reproduces a task field-for-field whenever
its id and created_at are truthy (as the constructor guarantees) and
its check_ins are current-format records; and a task obtained from
legacy string-only check-in data has record-format check_ins, so the
round-trip is exact for it as well.
-/
theorem round_trip_spec :
    (∀ (t : Task) (clk : Clock), t.id ≠ "" → t.created_at ≠ "" →
      (∀ e ∈ t.check_ins, e.isDict = true) →
      Task.from_dict t.to_dict.toRaw clk = .ok t) ∧
    (∀ (d : RawTask) (clk0 : Clock) (t0 : Task) (ss : List String),
      d.check_ins = some (ss.map Entry.str) →
      Task.from_dict d clk0 = .ok t0 →
      ∀ e ∈ t0.check_ins, e.isDict = true) := by
  constructor
  · intro t clk hid hca hcs
    rw [from_dict_ok_iff]
    refine ⟨t.name, t.id, t.created_at, t.rounds, rfl, rfl, rfl, rfl, ?_⟩
    simp [Task.to_dict, TaskDict.toRaw, Task.init, pyOrStr_some _ _ hid,
      pyOrStr_some _ _ hca, pyOrList_some, upgradeCheckIns_of_records _ hcs]
  · intro d clk0 t0 ss hcs hok e he
    have h := from_dict_ok_check_ins d clk0 t0 hok
    rw [hcs] at h
    cases ss with
    | nil =>
        rw [h] at he
        simp [upgradeCheckIns] at he
    | cons s rest =>
        simp [upgradeCheckIns] at h
        rw [h] at he
        rcases List.mem_cons.mp he with rfl | he2
        · rfl
        · rcases List.mem_map.mp he2 with ⟨a, _, rfl⟩
          rfl

/-- Concrete instance of round_trip_spec: a one-record task survives
the to_dict / from_dict round-trip. -/
theorem round_trip_spec_witness :
    Task.from_dict (Task.to_dict ⟨"1", "Read", "c",
        [Entry.dict (Entry.str "2024-01-01") "08:00:00" "n"], 1⟩).toRaw
      ⟨"g", "now", "08:00:00", "2024-01-02"⟩ =
      .ok ⟨"1", "Read", "c",
        [Entry.dict (Entry.str "2024-01-01") "08:00:00" "n"], 1⟩ :=
  round_trip_spec.1 ⟨"1", "Read", "c",
      [Entry.dict (Entry.str "2024-01-01") "08:00:00" "n"], 1⟩
    ⟨"g", "now", "08:00:00", "2024-01-02"⟩ (by decide) (by decide) (by decide)

/--
C5: loading a persisted task whose check_ins is a non-empty plain list
of date strings succeeds (all four keys present) and yields records
pairing each string, in order, with time 00:00:00 and an empty note.
-/
theorem legacy_upgrade_spec (d : RawTask) (clk : Clock) (ss : List String)
    (nm i ca : String) (r : Int)
    (hcs : d.check_ins = some (ss.map Entry.str)) (hne : ss ≠ [])
    (hnm : d.name = some nm) (hid : d.id = some i)
    (hca : d.created_at = some ca) (hr : d.rounds = some r) :
    ∃ t, Task.from_dict d clk = .ok t ∧
      t.check_ins = ss.map fun s => Entry.dict (Entry.str s) "00:00:00" "" := by
  refine ⟨Task.init nm (some i) (some ca)
      (some (upgradeCheckIns (d.check_ins.getD []))) r clk, ?_, ?_⟩
  · rw [from_dict_ok_iff]
    exact ⟨nm, i, ca, r, hnm, hid, hca, hr, rfl⟩
  · simp only [Task.init, hcs, Option.getD_some, pyOrList_some]
    cases ss with
    | nil => exact absurd rfl hne
    | cons s rest =>
        simp [upgradeCheckIns, List.map_map, Function.comp]

/-- Concrete instance of legacy_upgrade_spec: the singleton legacy list
["2024-01-01"] upgrades to one full record. -/
theorem legacy_upgrade_spec_witness :
    ∃ t, Task.from_dict ⟨some "1", some "Read", some "c",
        some [Entry.str "2024-01-01"], some 1⟩ ⟨"g", "n", "t", "d"⟩ = .ok t ∧
      t.check_ins = [Entry.dict (Entry.str "2024-01-01") "00:00:00" ""] :=
  legacy_upgrade_spec ⟨some "1", some "Read", some "c",
      some [Entry.str "2024-01-01"], some 1⟩ ⟨"g", "n", "t", "d"⟩
    ["2024-01-01"] "Read" "1" "c" 1 rfl (by decide) rfl rfl rfl rfl

/-- A well-keyed persisted object deserializes successfully. -/
theorem from_dict_ok_of_wf (d : RawTask) (clk : Clock)
    (h : d.wellFormed = true) : ∃ t, Task.from_dict d clk = .ok t := by
  simp only [RawTask.wellFormed, Bool.and_eq_true, Option.isSome_iff_exists] at h
  obtain ⟨⟨⟨⟨nm, hnm⟩, i, hi⟩, ca, hca⟩, r, hr⟩ := h
  exact ⟨_, (from_dict_ok_iff _ _ _).mpr ⟨nm, i, ca, r, hnm, hi, hca, hr, rfl⟩⟩

/-- Deserializing a list of well-keyed objects yields one task per
object, in order, each produced by from_dict at its own index. -/
theorem fromDictAll_ok_of_wf (ds : List RawTask) (clk : Nat → Clock) (i : Nat)
    (h : ∀ d ∈ ds, d.wellFormed = true) :
    ∃ ts, fromDictAll ds clk i = .ok ts ∧ ts.length = ds.length ∧
      ∀ j (hj : j < ds.length) (hj2 : j < ts.length),
        Task.from_dict (ds.get ⟨j, hj⟩) (clk (i + j)) = .ok (ts.get ⟨j, hj2⟩) := by
  induction ds generalizing i with
  | nil => exact ⟨[], rfl, rfl, fun j hj _ => absurd hj (Nat.not_lt_zero j)⟩
  | cons d rest ih =>
      obtain ⟨t, ht⟩ := from_dict_ok_of_wf d (clk i) (h d (List.mem_cons_self _ _))
      obtain ⟨ts, hts, hlen, hpt⟩ :=
        ih (i + 1) fun a ha => h a (List.mem_cons_of_mem _ ha)
      refine ⟨t :: ts, ?_, by simp [hlen], ?_⟩
      · simp [fromDictAll, ht, hts, Except.instMonad, Except.bind, pure,
          Except.pure]
      · intro j hj hj2
        cases j with
        | zero => simpa using ht
        | succ k =>
            have hidx : i + (k + 1) = (i + 1) + k := by omega
            rw [hidx]
            exact hpt k (Nat.lt_of_succ_lt_succ hj) (Nat.lt_of_succ_lt_succ hj2)

/--
C6: load returns the empty list when the file is missing; on a read or
parse failure, and on a deserialization failure inside the list
comprehension, it logs one error line and returns the empty list (no
exception propagates — the model is total); and on a well-formed array
it returns one task per array element, in array order.
-/
theorem load_tasks_spec (clk : Nat → Clock) :
    load_tasks .noFile clk = ([], []) ∧
    (∀ msg, ∃ log, load_tasks (.readError msg) clk = ([], [log])) ∧
    (∀ ds e, fromDictAll ds clk 0 = .error e →
      ∃ log, load_tasks (.parsed ds) clk = ([], [log])) ∧
    (∀ ds, (∀ d ∈ ds, d.wellFormed = true) →
      ∃ ts, load_tasks (.parsed ds) clk = (ts, []) ∧ ts.length = ds.length ∧
        ∀ j (hj : j < ds.length) (hj2 : j < ts.length),
          Task.from_dict (ds.get ⟨j, hj⟩) (clk j) = .ok (ts.get ⟨j, hj2⟩)) := by
  refine ⟨rfl, fun msg => ⟨_, rfl⟩, ?_, ?_⟩
  · intro ds e he
    exact ⟨"加载任务时出错: " ++ e, by simp [load_tasks, he]⟩
  · intro ds hwf
    obtain ⟨ts, hts, hlen, hpt⟩ := fromDictAll_ok_of_wf ds clk 0 hwf
    refine ⟨ts, by simp [load_tasks, hts], hlen, ?_⟩
    intro j hj hj2
    simpa using hpt j hj hj2

/-- Concrete instance of load_tasks_spec: a one-element well-formed
array loads as one task. -/
theorem load_tasks_spec_witness :
    ∃ ts, load_tasks
        (.parsed [⟨some "1", some "Read", some "c", some [], some 1⟩])
        (fun _ => ⟨"g", "n", "t", "d"⟩) = (ts, []) ∧
      ts.length = [(⟨some "1", some "Read", some "c", some [], some 1⟩ :
        RawTask)].length ∧
      ∀ j (hj : j < [(⟨some "1", some "Read", some "c", some [], some 1⟩ :
          RawTask)].length) (hj2 : j < ts.length),
        Task.from_dict ([(⟨some "1", some "Read", some "c", some [], some 1⟩ :
            RawTask)].get ⟨j, hj⟩) ⟨"g", "n", "t", "d"⟩ =
          .ok (ts.get ⟨j, hj2⟩) :=
  (load_tasks_spec (fun _ => ⟨"g", "n", "t", "d"⟩)).2.2.2
    [⟨some "1", some "Read", some "c", some [], some 1⟩] (by decide)

/--
C7: save serializes the whole collection via to_dict, in order, and
overwrites the file as a whole (any previous content is discarded),
marking the parent directory as created; a write failure is logged and
the function returns without raising (the model is total).
-/
theorem save_tasks_spec (st : Storage) (tasks : List Task) :
    save_tasks st tasks none =
      ({ dirExists := true, file := some (tasks.map Task.to_dict) }, []) ∧
    (∀ msg, save_tasks st tasks (some msg) =
      (st, ["保存任务时出错: " ++ msg])) :=
  ⟨rfl, fun _ => rfl⟩

/--
C8: in a collection with pairwise-distinct ids, deleting a task by its
id removes exactly that task; every other task remains, in its
original relative order.
-/
theorem delete_by_id_spec (l1 l2 : List Task) (target : Task)
    (hdis : (l1 ++ target :: l2).Pairwise fun a b => a.id ≠ b.id) :
    confirm_delete_task (l1 ++ target :: l2) target = l1 ++ l2 := by
  rcases List.pairwise_append.mp hdis with ⟨_, h2, h12⟩
  rcases List.pairwise_cons.mp h2 with ⟨htl2, _⟩
  have h1 : l1.filter (fun t => t.id ≠ target.id) = l1 :=
    List.filter_eq_self.mpr fun a ha => by
      simpa using h12 a ha target (List.mem_cons_self _ _)
  have h3 : l2.filter (fun t => t.id ≠ target.id) = l2 :=
    List.filter_eq_self.mpr fun a ha => by
      simpa using (htl2 a ha).symm
  simp only [confirm_delete_task, List.filter_append, List.filter_cons, h1, h3]
  simp

/-- Concrete instance of delete_by_id_spec: deleting the middle task
of three keeps the outer two in order. -/
theorem delete_by_id_spec_witness :
    confirm_delete_task
      [Task.mk "1" "A" "c" [] 1, Task.mk "2" "B" "c" [] 1,
        Task.mk "3" "C" "c" [] 1] (Task.mk "2" "B" "c" [] 1) =
      [Task.mk "1" "A" "c" [] 1, Task.mk "3" "C" "c" [] 1] :=
  delete_by_id_spec [Task.mk "1" "A" "c" [] 1] [Task.mk "3" "C" "c" [] 1]
    (Task.mk "2" "B" "c" [] 1) (by decide)

/--
C9: from_dict decides the legacy upgrade by the first element of
check_ins alone: a string head makes every element e (dicts included)
become \x7bdate: e, time: 00:00:00, note: \x7d, a dict head (or an empty
or absent list) keeps the list exactly as-is.
-/
theorem upgrade_decision_spec (d : RawTask) (clk : Clock) :
    (∀ s rest t, d.check_ins = some (Entry.str s :: rest) →
      Task.from_dict d clk = .ok t →
      t.check_ins = (Entry.str s :: rest).map fun e =>
        Entry.dict e "00:00:00" "") ∧
    (∀ a ti no rest t, d.check_ins = some (Entry.dict a ti no :: rest) →
      Task.from_dict d clk = .ok t →
      t.check_ins = Entry.dict a ti no :: rest) ∧
    (∀ t, (d.check_ins = some [] ∨ d.check_ins = none) →
      Task.from_dict d clk = .ok t → t.check_ins = []) := by
  refine ⟨?_, ?_, ?_⟩
  · intro s rest t hcs hok
    rw [from_dict_ok_check_ins d clk t hok, hcs]
    rfl
  · intro a ti no rest t hcs hok
    rw [from_dict_ok_check_ins d clk t hok, hcs]
    rfl
  · intro t hcs hok
    rcases hcs with hcs | hcs <;> rw [from_dict_ok_check_ins d clk t hok, hcs]
      <;> rfl

/-- Concrete instance of upgrade_decision_spec: a dict after a string
head is wrapped as a nested date value. -/
theorem upgrade_decision_spec_witness :
    (Task.mk "1" "Read" "c"
        [Entry.dict (Entry.str "2024-01-01") "00:00:00" "",
          Entry.dict (Entry.dict (Entry.str "2024-01-02") "01:00:00" "x")
            "00:00:00" ""] 1).check_ins =
      (Entry.str "2024-01-01" ::
        [Entry.dict (Entry.str "2024-01-02") "01:00:00" "x"]).map fun e =>
          Entry.dict e "00:00:00" "" :=
  (upgrade_decision_spec
      ⟨some "1", some "Read", some "c",
        some [Entry.str "2024-01-01",
          Entry.dict (Entry.str "2024-01-02") "01:00:00" "x"], some 1⟩
      ⟨"g", "n", "t", "d"⟩).1 "2024-01-01"
    [Entry.dict (Entry.str "2024-01-02") "01:00:00" "x"]
    (Task.mk "1" "Read" "c"
      [Entry.dict (Entry.str "2024-01-01") "00:00:00" "",
        Entry.dict (Entry.dict (Entry.str "2024-01-02") "01:00:00" "x")
          "00:00:00" ""] 1) rfl rfl

/-- A persisted object missing one of the four read keys fails to
deserialize, for every clock. -/
theorem from_dict_error_of_missing (d : RawTask) (clk : Clock)
    (h : d.name = none ∨ d.id = none ∨ d.created_at = none ∨
      d.rounds = none) :
    ∃ e, Task.from_dict d clk = .error e := by
  cases hfd : Task.from_dict d clk with
  | error e => exact ⟨e, rfl⟩
  | ok t =>
      rcases (from_dict_ok_iff d clk t).mp hfd with
        ⟨nm, i, ca, r, hnm, hi, hca, hr, _⟩
      rcases h with h | h | h | h <;> simp_all

/-- One failing element makes the whole list comprehension fail. -/
theorem fromDictAll_error_of_mem (ds : List RawTask) (clk : Nat → Clock)
    (i : Nat) (d : RawTask) (hmem : d ∈ ds)
    (hbad : ∀ c, ∃ e, Task.from_dict d c = .error e) :
    ∃ e, fromDictAll ds clk i = .error e := by
  induction ds generalizing i with
  | nil => cases hmem
  | cons a rest ih =>
      rcases List.mem_cons.mp hmem with rfl | hmem2
      · obtain ⟨e, he⟩ := hbad (clk i)
        exact ⟨e, by simp [fromDictAll, he, Except.instMonad, Except.bind]⟩
      · cases hfa : Task.from_dict a (clk i) with
        | error e =>
            exact ⟨e, by simp [fromDictAll, hfa, Except.instMonad, Except.bind]⟩
        | ok t =>
            obtain ⟨e, he⟩ := ih (i + 1) hmem2
            exact ⟨e, by
              simp [fromDictAll, hfa, he, Except.instMonad, Except.bind]⟩

/--
C10: from_dict reads name, id, created_at and rounds unconditionally,
so a record missing any of them raises KeyError; and because the whole
list comprehension runs inside one try block, a single such record
makes load return the empty list, discarding the entire collection.
-/
theorem missing_key_spec (d : RawTask) (clk0 : Clock) (clk : Nat → Clock) :
    ((d.name = none ∨ d.id = none ∨ d.created_at = none ∨
        d.rounds = none) →
      ∃ e, Task.from_dict d clk0 = .error e) ∧
    (∀ ds, d ∈ ds →
      (d.name = none ∨ d.id = none ∨ d.created_at = none ∨
        d.rounds = none) →
      ∃ log, load_tasks (.parsed ds) clk = ([], [log])) := by
  constructor
  · exact from_dict_error_of_missing d clk0
  · intro ds hmem hbad
    obtain ⟨e, he⟩ := fromDictAll_error_of_mem ds clk 0 d hmem
      (fun c => from_dict_error_of_missing d c hbad)
    exact ⟨"加载任务时出错: " ++ e, by simp [load_tasks, he]⟩

/-- Concrete instance of missing_key_spec: one record without rounds
discards a collection that also holds a well-formed record. -/
theorem missing_key_spec_witness :
    ∃ log, load_tasks
        (.parsed [⟨some "1", some "A", some "c", some [], some 1⟩,
          ⟨some "2", some "B", some "c", some [], none⟩])
        (fun _ => ⟨"g", "n", "t", "d"⟩) = ([], [log]) :=
  (missing_key_spec ⟨some "2", some "B", some "c", some [], none⟩
      ⟨"g", "n", "t", "d"⟩ (fun _ => ⟨"g", "n", "t", "d"⟩)).2
    [⟨some "1", some "A", some "c", some [], some 1⟩,
      ⟨some "2", some "B", some "c", some [], none⟩]
    (by decide) (Or.inr (Or.inr (Or.inr rfl)))

end ThirtyOneDays
